import Mathlib

/-!
Shallow embedding of the transactional sales and ledger engine of the
panaderia-el-trigal point-of-sale application (the `DBService` class in
`services/db.ts`, together with the seller-view resume handler and the
admin-view sale editor that drive it).

Modelling conventions:
* Each Supabase table is a `List` of records inside `DBState`; `insert`
  appends, `update ... eq('id', x)` maps over the list, `delete ... eq('id', x)`
  filters, and `select ... eq('id', x).single()` succeeds exactly when the
  filtered list is a singleton (that is PostgREST's `.single()` contract).
* The `sales` table's primary-key uniqueness (the data model declares sale
  ids unique) is modelled by `insert` failing when a row with the same id
  already exists; the TypeScript code checks that insert error and throws.
* JavaScript numbers standing for money are embedded as `Rat`; quantities
  and stock counts are embedded as `Int` (the code never rounds them).
* Nondeterministic environment inputs (`crypto.randomUUID()` inside
  `generateId`, `new Date().toISOString()`) become explicit parameters.
* A thrown exception is an `Except.error`; operations return the resulting
  store state together with the outcome, so that "no mutation happened"
  is an observable statement about the returned state.
-/

/-- Model of `types.ts`: `Product`. -/
structure Product where
  id : String
  name : String
  priceRetail : Rat
  priceWholesale : Rat
  cost : Rat
  stock : Int
  category : String
deriving DecidableEq, Repr

/-- Model of `types.ts`: `Client`. -/
structure Client where
  id : String
  name : String
  businessName : String
  debt : Rat
  creditLimit : Rat
  address : String
deriving DecidableEq, Repr

/-- Model of `types.ts`: `CartItem extends Product { quantity }`. -/
structure CartItem extends Product where
  quantity : Int
deriving DecidableEq, Repr

/-- Model of `types.ts`: `SuspendedSale`. -/
structure SuspendedSale where
  id : String
  customerName : String
  items : List CartItem
  date : String
  total : Rat
deriving DecidableEq, Repr

/-- Model of `types.ts`: `SaleType = 'pos' | 'dispatch'` (the spec calls the
`'pos'` variant the *retail* sale type). -/
inductive SaleType where
  | pos
  | dispatch
deriving DecidableEq, Repr

/-- Model of `types.ts`: `SaleItem`. -/
structure SaleItem where
  productId : String
  productName : String
  quantity : Int
  unitPrice : Rat
  subtotal : Rat
deriving DecidableEq, Repr

/-- Model of `types.ts`: `Sale` (`clientId`/`clientName` are optional fields, present
only on dispatch sales). -/
structure Sale where
  id : String
  date : String
  type : SaleType
  items : List SaleItem
  totalAmount : Rat
  clientId : Option String
  clientName : Option String
  sellerId : String
deriving DecidableEq, Repr

/-- The four Supabase tables the ledger engine touches. -/
structure DBState where
  products : List Product
  clients : List Client
  sales : List Sale
  suspendedSales : List SuspendedSale
deriving DecidableEq, Repr

/-- The exceptions the `DBService` methods can throw: the two Spanish
"client not found" messages and a rethrown sales-table insert error. -/
inductive DBError where
  | clienteNoEncontrado
  | clienteNoExiste
  | saleInsertError
deriving DecidableEq, Repr

/-- PostgREST `.single()`: the query result when exactly one row matched,
`none` (an error, which the callers treat as "no data") otherwise. -/
def singleRow {α : Type} (rows : List α) : Option α :=
  match rows with
  | [a] => some a
  | _ => none

/-- Model of `select('*').eq('id', pid).single()` against the products table. -/
def findProduct (ps : List Product) (pid : String) : Option Product :=
  singleRow (ps.filter (fun p => p.id == pid))

/-- The stock column of the unique product with the given id, when it exists. -/
def stockOf (ps : List Product) (pid : String) : Option Int :=
  (findProduct ps pid).map Product.stock

/-- Model of `select('*').eq('id', cid).single()` against the clients table. -/
def findClientRec (cs : List Client) (cid : String) : Option Client :=
  singleRow (cs.filter (fun c => c.id == cid))

/-- The debt column of the unique client with the given id, when it exists. -/
def debtOf (cs : List Client) (cid : String) : Option Rat :=
  (findClientRec cs cid).map Client.debt

/-- Model of `db.ts` `decrementStock(productId, quantity)`: read the current stock via
`.single()`; if the row came back, write `stock - quantity`; if not (the
product does not exist), silently do nothing. -/
def decrementStock (ps : List Product) (productId : String) (quantity : Int) :
    List Product :=
  match findProduct ps productId with
  | some _ =>
      ps.map (fun p =>
        if p.id == productId then { p with stock := p.stock - quantity } else p)
  | none => ps

/-- The `for (const item of items) await this.decrementStock(...)` loop shared
by `createRetailSale` and `createDispatchSale`. -/
def decrementStockAll (ps : List Product) (items : List SaleItem) :
    List Product :=
  items.foldl (fun acc item => decrementStock acc item.productId item.quantity) ps

/-- Model of `db.ts` `createRetailSale(items, sellerId)`. `saleId` is the value
`this.generateId()` (a fresh `crypto.randomUUID()`) returned, `date` the
ISO timestamp; both are environment inputs. Computes the total by folding
subtotals, inserts the sale (type `'pos'`), then decrements stock per item.
No input validation of any kind is performed. -/
def createRetailSale (st : DBState) (items : List SaleItem)
    (sellerId saleId date : String) : DBState × Except DBError Unit :=
  let totalAmount := items.foldl (fun sum item => sum + item.subtotal) 0
  let sale : Sale :=
    { id := saleId, date := date, type := SaleType.pos, items := items
      totalAmount := totalAmount, clientId := none, clientName := none
      sellerId := sellerId }
  if st.sales.any (fun s => s.id == saleId) then
    (st, Except.error DBError.saleInsertError)
  else
    let st1 : DBState := { st with sales := st.sales ++ [sale] }
    ({ st1 with products := decrementStockAll st1.products items }, Except.ok ())

/-- Model of `db.ts` `createDispatchSale(clientId, items, sellerId)`: look the client
up (`throw "Cliente no existe"` on failure), snapshot
`client.businessName || client.name` (JavaScript `||`: the business name
unless it is the empty string), insert the sale (type `'dispatch'`), write
`debt := client.debt + totalAmount`, then decrement stock per item. -/
def createDispatchSale (st : DBState) (clientId : String)
    (items : List SaleItem) (sellerId saleId date : String) :
    DBState × Except DBError Unit :=
  let totalAmount := items.foldl (fun sum item => sum + item.subtotal) 0
  match findClientRec st.clients clientId with
  | none => (st, Except.error DBError.clienteNoExiste)
  | some client =>
    let sale : Sale :=
      { id := saleId, date := date, type := SaleType.dispatch, items := items
        totalAmount := totalAmount, clientId := some clientId
        clientName := some (if client.businessName == "" then client.name
                            else client.businessName)
        sellerId := sellerId }
    if st.sales.any (fun s => s.id == saleId) then
      (st, Except.error DBError.saleInsertError)
    else
      let st1 : DBState := { st with sales := st.sales ++ [sale] }
      let st2 : DBState :=
        { st1 with clients := st1.clients.map (fun c =>
            if c.id == clientId then { c with debt := client.debt + totalAmount }
            else c) }
      ({ st2 with products := decrementStockAll st2.products items }, Except.ok ())

/-- Model of `db.ts` `registerClientPayment(clientId, amount)`: read the current debt
(`throw "Cliente no encontrado"` on failure), write
`Math.max(0, debt - amount)`. No validation of `amount`. -/
def registerClientPayment (st : DBState) (clientId : String) (amount : Rat) :
    DBState × Except DBError Unit :=
  match findClientRec st.clients clientId with
  | none => (st, Except.error DBError.clienteNoEncontrado)
  | some client =>
    let newDebt := max 0 (client.debt - amount)
    ({ st with clients := st.clients.map (fun c =>
        if c.id == clientId then { c with debt := newDebt } else c) },
     Except.ok ())

/-- Model of `db.ts` `updateSale(updatedSale)`: overwrite the row whose id matches;
touches nothing but the sales table. -/
def updateSale (st : DBState) (updatedSale : Sale) : DBState :=
  { st with sales := st.sales.map (fun s =>
      if s.id == updatedSale.id then updatedSale else s) }

/-- Relation `saleDateGe a b` holds when `a.date` is at least `b.date`: the ordering
`order('date', { ascending: false })` asks the store for. -/
def saleDateGe (a b : Sale) : Prop := b.date ≤ a.date

instance : DecidableRel saleDateGe := fun a b =>
  inferInstanceAs (Decidable (b.date ≤ a.date))

instance : IsTotal Sale saleDateGe :=
  ⟨fun a b => (le_total a.date b.date).symm⟩

instance : IsTrans Sale saleDateGe :=
  ⟨fun _ _ _ hab hbc => le_trans hbc hab⟩

/-- Model of `db.ts` `getSales()`: the sales table ordered by date, descending. -/
def getSales (st : DBState) : List Sale :=
  st.sales.insertionSort saleDateGe

/-- Model of `db.ts` `getSuspendedSales()`. -/
def getSuspendedSales (st : DBState) : List SuspendedSale :=
  st.suspendedSales

/-- Model of `db.ts` `addSuspendedSale(sale)`: a plain insert whose error (e.g. a
duplicate id) the caller ignores, so a duplicate leaves the table unchanged. -/
def addSuspendedSale (st : DBState) (sale : SuspendedSale) : DBState :=
  if st.suspendedSales.any (fun s => s.id == sale.id) then st
  else { st with suspendedSales := st.suspendedSales ++ [sale] }

/-- Model of `db.ts` `removeSuspendedSale(id)`: `delete().eq('id', id)` — removes the
matching rows, succeeding (as a no-op) when none match. -/
def removeSuspendedSale (st : DBState) (id : String) : DBState :=
  { st with suspendedSales := st.suspendedSales.filter (fun s => !(s.id == id)) }

/-- Model of `SellerView.handleResumeSale(suspended)`: if the active cart is non-empty,
ask for confirmation and abort when it is refused; otherwise set the cart to
the held snapshot and delete the suspended row. Returns the new store state
and the new cart contents. -/
def handleResumeSale (st : DBState) (cart : List CartItem)
    (suspended : SuspendedSale) (confirmOverwrite : Bool) :
    DBState × List CartItem :=
  if 0 < cart.length ∧ confirmOverwrite = false then (st, cart)
  else (removeSuspendedSale st suspended.id, suspended.items)

/-- Model of `SalesReport.saveEditedSale`: drop zero-quantity edit rows, recompute the
total, and `updateSale` the record built from the selected sale with only
`items` and `totalAmount` replaced. -/
def saveEditedSale (st : DBState) (selectedSale : Sale)
    (editItems : List SaleItem) : DBState :=
  let filteredItems := editItems.filter (fun i => decide (0 < i.quantity))
  let newTotal := filteredItems.foldl (fun acc curr => acc + curr.subtotal) 0
  updateSale st
    { selectedSale with items := filteredItems, totalAmount := newTotal }

/-- Spec-side reading of invariant 1: the sum of the items' subtotals. -/
def sumSubtotals (items : List SaleItem) : Rat :=
  (items.map SaleItem.subtotal).sum

/-! ### Basic lemmas about the store primitives -/

theorem singleRow_eq_some_iff {α : Type} {l : List α} {a : α} :
    singleRow l = some a ↔ l = [a] := by
  cases l with
  | nil => simp [singleRow]
  | cons x xs =>
    cases xs with
    | nil => simp [singleRow]
    | cons y ys => simp [singleRow]

theorem filter_key_map {α : Type} (key : α → String) (f : α → α)
    (hf : ∀ x, key (f x) = key x) (l : List α) (q : String) :
    (l.map f).filter (fun x => key x == q) =
      (l.filter (fun x => key x == q)).map f := by
  induction l with
  | nil => simp
  | cons x xs ih =>
    by_cases hkey : (key x == q) = true
    · simp [List.filter_cons, hf, hkey, ih]
    · simp [List.filter_cons, hf, hkey, ih]

theorem mem_map_update_ne {α : Type} (key : α → String) (u : α → α)
    (l : List α) (q : String) (x : α) (hx : x ∈ l) (hne : key x ≠ q) :
    x ∈ l.map (fun y => if key y == q then u y else y) := by
  refine List.mem_map.2 ⟨x, hx, ?_⟩
  simp [beq_iff_eq, hne]

theorem singleRow_filter_map_update {α : Type} (key : α → String) (u : α → α)
    (hu : ∀ x, key (u x) = key x) (l : List α) (q : String) (a : α)
    (h : singleRow (l.filter (fun x => key x == q)) = some a) :
    singleRow ((l.map (fun y => if key y == q then u y else y)).filter
      (fun x => key x == q)) = some (u a) := by
  have hfil := singleRow_eq_some_iff.1 h
  have hpres : ∀ y, key (if key y == q then u y else y) = key y := by
    intro y
    by_cases hy : (key y == q) = true <;> simp [hy, hu]
  have ha : key a = q := by
    have hamem : a ∈ l.filter (fun x => key x == q) := by
      rw [hfil]; exact List.mem_singleton.2 rfl
    have := List.of_mem_filter hamem
    simpa [beq_iff_eq] using this
  rw [filter_key_map key _ hpres, hfil]
  simp [singleRow, ha]

theorem findProduct_decrementStock_self (ps : List Product) (pid : String)
    (k : Int) (p : Product) (hp : findProduct ps pid = some p) :
    findProduct (decrementStock ps pid k) pid =
      some { p with stock := p.stock - k } := by
  unfold decrementStock
  rw [hp]
  exact singleRow_filter_map_update Product.id
    (fun x => { x with stock := x.stock - k }) (fun x => rfl) ps pid p hp

theorem findProduct_decrementStock_ne (ps : List Product) (pid q : String)
    (k : Int) (hne : q ≠ pid) :
    findProduct (decrementStock ps pid k) q = findProduct ps q := by
  unfold decrementStock
  cases h : findProduct ps pid with
  | none => rfl
  | some p =>
    have hpres : ∀ y : Product,
        Product.id (if y.id == pid then { y with stock := y.stock - k } else y) =
          Product.id y := by
      intro y
      by_cases hy : (y.id == pid) = true <;> simp [hy]
    unfold findProduct
    rw [filter_key_map Product.id _ hpres]
    have hfix : ∀ y ∈ ps.filter (fun x => x.id == q),
        (if y.id == pid then { y with stock := y.stock - k } else y) = y := by
      intro y hy
      have hid : y.id = q := by
        have := List.of_mem_filter hy
        simpa [beq_iff_eq] using this
      simp [hid, beq_iff_eq, hne]
    rw [List.map_congr_left hfix]
    simp

theorem decrementStockAll_cons (ps : List Product) (i : SaleItem)
    (is : List SaleItem) :
    decrementStockAll ps (i :: is) =
      decrementStockAll (decrementStock ps i.productId i.quantity) is := rfl

theorem findProduct_decrementStockAll_notin (ps : List Product)
    (items : List SaleItem) (q : String)
    (h : ∀ i ∈ items, i.productId ≠ q) :
    findProduct (decrementStockAll ps items) q = findProduct ps q := by
  induction items generalizing ps with
  | nil => rfl
  | cons i is ih =>
    rw [decrementStockAll_cons,
      ih _ (fun j hj => h j (List.mem_cons_of_mem _ hj)),
      findProduct_decrementStock_ne]
    exact Ne.symm (h i (List.mem_cons_self _ _))

theorem stockOf_decrementStockAll_single (ps : List Product)
    (items : List SaleItem) (t : SaleItem) (p : Product)
    (hmem : t ∈ items)
    (hpair : items.Pairwise (fun a b => a.productId ≠ b.productId))
    (hp : findProduct ps t.productId = some p) :
    stockOf (decrementStockAll ps items) t.productId =
      some (p.stock - t.quantity) := by
  induction items generalizing ps with
  | nil => cases hmem
  | cons i is ih =>
    rw [decrementStockAll_cons]
    rcases List.mem_cons.1 hmem with rfl | hmem'
    · have hhead : ∀ j ∈ is, j.productId ≠ t.productId := fun j hj he =>
        (List.pairwise_cons.1 hpair).1 j hj he.symm
      unfold stockOf
      rw [findProduct_decrementStockAll_notin _ _ _ hhead,
        findProduct_decrementStock_self ps t.productId t.quantity p hp]
      rfl
    · have hne : i.productId ≠ t.productId :=
        (List.pairwise_cons.1 hpair).1 t hmem'
      have h1 : findProduct (decrementStock ps i.productId i.quantity)
          t.productId = some p := by
        rw [findProduct_decrementStock_ne _ _ _ _ (Ne.symm hne)]
        exact hp
      exact ih _ hmem' (List.pairwise_cons.1 hpair).2 h1

theorem foldl_add_subtotal (items : List SaleItem) (a : Rat) :
    items.foldl (fun sum item => sum + item.subtotal) a =
      a + sumSubtotals items := by
  induction items generalizing a with
  | nil => simp [sumSubtotals]
  | cons x xs ih =>
    simp only [List.foldl_cons, ih, sumSubtotals, List.map_cons, List.sum_cons]
    ring

theorem any_id_eq_false {l : List Sale} {saleId : String}
    (h : ∀ s ∈ l, s.id ≠ saleId) :
    (l.any (fun s => s.id == saleId)) = false := by
  rw [List.any_eq_false]
  intro s hs
  simpa [beq_iff_eq] using h s hs

theorem findClientRec_map_update (cs : List Client) (cid : String)
    (u : Client → Client) (hu : ∀ x, (u x).id = x.id) (c : Client)
    (hc : findClientRec cs cid = some c) :
    findClientRec (cs.map (fun y => if y.id == cid then u y else y)) cid =
      some (u c) :=
  singleRow_filter_map_update Client.id u hu cs cid c hc

theorem updateSale_fields (st : DBState) (u : Sale) :
    (updateSale st u).products = st.products ∧
    (updateSale st u).clients = st.clients ∧
    (updateSale st u).suspendedSales = st.suspendedSales ∧
    (updateSale st u).sales = st.sales.map (fun s => if s.id == u.id then u else s) :=
  ⟨rfl, rfl, rfl, rfl⟩

/-! ### Claim theorems -/

/-- Claim C10: `getSales` returns the sale ledger sorted by date in
descending order (newest first) for every state of the store: its result is
a permutation of the sales table that is sorted under `saleDateGe`
(each sale's date is at least the following one's). -/
theorem getSales_sorted_desc (st : DBState) :
    (getSales st).Sorted saleDateGe ∧ (getSales st).Perm st.sales :=
  ⟨List.sorted_insertionSort saleDateGe st.sales,
   List.perm_insertionSort saleDateGe st.sales⟩

/-- Claim C4: for every existing client and every payment amount,
`registerClientPayment` succeeds, sets that client's debt to
`max 0 (debt_before - amount)` (hence the debt is never negative) while
changing no other field of the client, leaves every other client record in
place, and leaves products, sales and suspended sales untouched. -/
theorem registerClientPayment_clamps_debt (st : DBState) (clientId : String)
    (amount : Rat) (client : Client)
    (hc : findClientRec st.clients clientId = some client) :
    (registerClientPayment st clientId amount).2 = Except.ok () ∧
    findClientRec (registerClientPayment st clientId amount).1.clients clientId =
      some { client with debt := max 0 (client.debt - amount) } ∧
    (0 : Rat) ≤ max 0 (client.debt - amount) ∧
    (∀ c ∈ st.clients, c.id ≠ clientId →
      c ∈ (registerClientPayment st clientId amount).1.clients) ∧
    (registerClientPayment st clientId amount).1.products = st.products ∧
    (registerClientPayment st clientId amount).1.sales = st.sales ∧
    (registerClientPayment st clientId amount).1.suspendedSales =
      st.suspendedSales := by
  have hrun : registerClientPayment st clientId amount =
      ({ st with clients := st.clients.map (fun c =>
          if c.id == clientId
          then { c with debt := max 0 (client.debt - amount) } else c) },
       Except.ok ()) := by
    unfold registerClientPayment
    rw [hc]
  rw [hrun]
  refine ⟨rfl, ?_, le_max_left 0 _, ?_, rfl, rfl, rfl⟩
  · exact findClientRec_map_update st.clients clientId
      (fun x => { x with debt := max 0 (client.debt - amount) })
      (fun x => rfl) client hc
  · intro c hcmem hcne
    exact mem_map_update_ne Client.id _ st.clients clientId c hcmem hcne

/-- Witness for C4: the spec's example — a client with debt 70 pays 30 and
ends with debt `max 0 (70 - 30) = 40`. -/
theorem registerClientPayment_clamps_debt_witness :
    max (0 : Rat) (70 - 30) = 40 ∧
    findClientRec (registerClientPayment
        (DBState.mk [] [Client.mk "C" "Ana" "" 70 0 ""] [] []) "C" 30).1.clients
        "C" =
      some { Client.mk "C" "Ana" "" 70 0 "" with debt := max 0 (70 - 30) } := by
  have h0 : findClientRec [Client.mk "C" "Ana" "" 70 0 ""] "C" =
      some (Client.mk "C" "Ana" "" 70 0 "") := by
    simp [findClientRec, singleRow]
  exact ⟨by norm_num,
    (registerClientPayment_clamps_debt
      (DBState.mk [] [Client.mk "C" "Ana" "" 70 0 ""] [] []) "C" 30 _ h0).2.1⟩

/-- Claim C9: amending an existing sale through `saveEditedSale` (which calls
`updateSale`) replaces only that sale's stored items and total amount: the
products table, the clients table, the suspended sales and every sale record
with a different id are exactly as before, the ledger keeps its length, and
the amended record keeps the sale's date, type, client reference, client
name and seller while its items become the positive-quantity edit rows and
its total their subtotal sum. -/
theorem saveEditedSale_frame (st : DBState) (selectedSale : Sale)
    (editItems : List SaleItem) (hmem : selectedSale ∈ st.sales) :
    (saveEditedSale st selectedSale editItems).products = st.products ∧
    (saveEditedSale st selectedSale editItems).clients = st.clients ∧
    (saveEditedSale st selectedSale editItems).suspendedSales =
      st.suspendedSales ∧
    (saveEditedSale st selectedSale editItems).sales.length =
      st.sales.length ∧
    (∀ s ∈ st.sales, s.id ≠ selectedSale.id →
      s ∈ (saveEditedSale st selectedSale editItems).sales) ∧
    (∀ s' ∈ (saveEditedSale st selectedSale editItems).sales,
      s'.id = selectedSale.id →
        s'.date = selectedSale.date ∧ s'.type = selectedSale.type ∧
        s'.clientId = selectedSale.clientId ∧
        s'.clientName = selectedSale.clientName ∧
        s'.sellerId = selectedSale.sellerId ∧
        s'.items = editItems.filter (fun i => decide (0 < i.quantity)) ∧
        s'.totalAmount =
          sumSubtotals (editItems.filter (fun i => decide (0 < i.quantity)))) := by
  unfold saveEditedSale updateSale
  refine ⟨rfl, rfl, rfl, by simp, ?_, ?_⟩
  · intro s hs hne
    refine List.mem_map.2 ⟨s, hs, ?_⟩
    simp [beq_iff_eq, hne]
  · intro s' hs' hid
    rcases List.mem_map.1 hs' with ⟨b, hb, rfl⟩
    by_cases hcond : (b.id == selectedSale.id) = true
    · simp [hcond, foldl_add_subtotal]
    · exfalso
      simp only [hcond] at hid
      simp only [if_neg, Bool.not_eq_true] at hid
      rw [beq_iff_eq] at hcond
      exact hcond (by simpa using hid)

/-- Witness for C9: amending the single sale of a concrete store leaves the
(empty) products and clients tables and the ledger length unchanged. -/
theorem saveEditedSale_frame_witness :
    (saveEditedSale
        (DBState.mk [] [] [Sale.mk "S1" "d" SaleType.pos [] 0 none none "u"] [])
        (Sale.mk "S1" "d" SaleType.pos [] 0 none none "u")
        [SaleItem.mk "P" "Pan" 2 3 6]).products = [] ∧
    (saveEditedSale
        (DBState.mk [] [] [Sale.mk "S1" "d" SaleType.pos [] 0 none none "u"] [])
        (Sale.mk "S1" "d" SaleType.pos [] 0 none none "u")
        [SaleItem.mk "P" "Pan" 2 3 6]).sales.length = 1 := by
  have h := saveEditedSale_frame
      (DBState.mk [] [] [Sale.mk "S1" "d" SaleType.pos [] 0 none none "u"] [])
      (Sale.mk "S1" "d" SaleType.pos [] 0 none none "u")
      [SaleItem.mk "P" "Pan" 2 3 6] (by simp)
  exact ⟨h.1, h.2.2.2.1⟩

/-- Claim C2: for a non-empty item list with positive quantities, pairwise
distinct product references that all exist, and a fresh generated sale id,
`createRetailSale` succeeds, appends exactly one sale — of type `'pos'`
(the spec's *retail*) whose `totalAmount` is the sum of the items'
subtotals — and decrements each referenced product's stock by exactly that
item's quantity, touching neither clients nor suspended sales. -/
theorem createRetailSale_spec (st : DBState) (items : List SaleItem)
    (sellerId saleId date : String)
    (hne : items ≠ [])
    (hq : ∀ i ∈ items, 0 < i.quantity)
    (hfresh : ∀ s ∈ st.sales, s.id ≠ saleId)
    (hnodup : items.Pairwise (fun a b => a.productId ≠ b.productId)) :
    (createRetailSale st items sellerId saleId date).2 = Except.ok () ∧
    (createRetailSale st items sellerId saleId date).1.sales =
      st.sales ++ [Sale.mk saleId date SaleType.pos items (sumSubtotals items)
        none none sellerId] ∧
    (∀ t ∈ items, ∀ p : Product,
      findProduct st.products t.productId = some p →
        stockOf (createRetailSale st items sellerId saleId date).1.products
          t.productId = some (p.stock - t.quantity)) ∧
    (createRetailSale st items sellerId saleId date).1.clients = st.clients ∧
    (createRetailSale st items sellerId saleId date).1.suspendedSales =
      st.suspendedSales := by
  have hany := any_id_eq_false hfresh
  have hsum : items.foldl (fun sum item => sum + item.subtotal) 0 =
      sumSubtotals items := by
    simpa using foldl_add_subtotal items 0
  have hrun : createRetailSale st items sellerId saleId date =
      ({ st with
          sales := st.sales ++ [Sale.mk saleId date SaleType.pos items
            (sumSubtotals items) none none sellerId],
          products := decrementStockAll st.products items },
       Except.ok ()) := by
    simp only [createRetailSale, hany, Bool.false_eq_true, if_false, hsum]
  rw [hrun]
  refine ⟨rfl, rfl, ?_, rfl, rfl⟩
  intro t ht p hp
  exact stockOf_decrementStockAll_single st.products items t p ht hnodup hp

/-- Witness for C2: the spec's example — a product with stock 10 sold at
quantity 4 ends with stock 6, and the call succeeds. -/
theorem createRetailSale_spec_witness :
    (createRetailSale (DBState.mk [Product.mk "P" "Pan" 1 1 0 10 "c"] [] [] [])
      [SaleItem.mk "P" "Pan" 4 1 4] "u" "s" "d").2 = Except.ok () ∧
    stockOf (createRetailSale
        (DBState.mk [Product.mk "P" "Pan" 1 1 0 10 "c"] [] [] [])
        [SaleItem.mk "P" "Pan" 4 1 4] "u" "s" "d").1.products "P" =
      some 6 := by
  have h := createRetailSale_spec
      (DBState.mk [Product.mk "P" "Pan" 1 1 0 10 "c"] [] [] [])
      [SaleItem.mk "P" "Pan" 4 1 4] "u" "s" "d"
      (by simp) (by simp) (by simp) (by simp)
  have hp : findProduct [Product.mk "P" "Pan" 1 1 0 10 "c"] "P" =
      some (Product.mk "P" "Pan" 1 1 0 10 "c") := by
    simp [findProduct, singleRow]
  refine ⟨h.1, ?_⟩
  have hs := h.2.2.1 (SaleItem.mk "P" "Pan" 4 1 4) (by simp) _ hp
  simpa using hs

/-- Claim C3: for every existing client, fresh generated sale id and item
list, `createDispatchSale` succeeds, sets that client's debt to its previous
debt plus the sale's total (the subtotal sum) — i.e. charges it exactly
once — and appends exactly one dispatch sale whose `clientName` snapshot is
the client's business name, falling back to the contact name when the
business name is empty; every other client record is left in place. -/
theorem createDispatchSale_spec (st : DBState) (clientId : String)
    (items : List SaleItem) (sellerId saleId date : String) (client : Client)
    (hc : findClientRec st.clients clientId = some client)
    (hfresh : ∀ s ∈ st.sales, s.id ≠ saleId) :
    (createDispatchSale st clientId items sellerId saleId date).2 =
      Except.ok () ∧
    debtOf (createDispatchSale st clientId items sellerId saleId date).1.clients
        clientId = some (client.debt + sumSubtotals items) ∧
    (createDispatchSale st clientId items sellerId saleId date).1.sales =
      st.sales ++ [Sale.mk saleId date SaleType.dispatch items
        (sumSubtotals items) (some clientId)
        (some (if client.businessName = "" then client.name
               else client.businessName)) sellerId] ∧
    (∀ c ∈ st.clients, c.id ≠ clientId →
      c ∈ (createDispatchSale st clientId items sellerId saleId date).1.clients) ∧
    (createDispatchSale st clientId items sellerId saleId date).1.suspendedSales =
      st.suspendedSales := by
  have hany := any_id_eq_false hfresh
  have hsum : items.foldl (fun sum item => sum + item.subtotal) 0 =
      sumSubtotals items := by
    simpa using foldl_add_subtotal items 0
  have hrun : createDispatchSale st clientId items sellerId saleId date =
      ({ st with
          sales := st.sales ++ [Sale.mk saleId date SaleType.dispatch items
            (sumSubtotals items) (some clientId)
            (some (if client.businessName = "" then client.name
                   else client.businessName)) sellerId],
          clients := st.clients.map (fun c =>
            if c.id == clientId
            then { c with debt := client.debt + sumSubtotals items } else c),
          products := decrementStockAll st.products items },
       Except.ok ()) := by
    simp only [createDispatchSale, hc, hany, Bool.false_eq_true, if_false, hsum,
      beq_iff_eq]
  rw [hrun]
  refine ⟨rfl, ?_, rfl, ?_, rfl⟩
  · have := findClientRec_map_update st.clients clientId
      (fun x => { x with debt := client.debt + sumSubtotals items })
      (fun x => rfl) client hc
    simp only [debtOf, this]
    rfl
  · intro c hcmem hcne
    exact mem_map_update_ne Client.id _ st.clients clientId c hcmem hcne

/-- Witness for C3: the spec's example — a client with debt 20 and a
dispatch of total 10 ends with debt 30, and the sale's `clientName` is the
client's business name. -/
theorem createDispatchSale_spec_witness :
    debtOf (createDispatchSale
        (DBState.mk [] [Client.mk "C" "Ana" "Panaderia Ana" 20 0 ""] [] [])
        "C" [SaleItem.mk "Q" "Pan" 2 5 10] "u" "s" "d").1.clients "C" =
      some 30 ∧
    (createDispatchSale
        (DBState.mk [] [Client.mk "C" "Ana" "Panaderia Ana" 20 0 ""] [] [])
        "C" [SaleItem.mk "Q" "Pan" 2 5 10] "u" "s" "d").1.sales =
      [Sale.mk "s" "d" SaleType.dispatch [SaleItem.mk "Q" "Pan" 2 5 10] 10
        (some "C") (some "Panaderia Ana") "u"] := by
  have hc : findClientRec [Client.mk "C" "Ana" "Panaderia Ana" 20 0 ""] "C" =
      some (Client.mk "C" "Ana" "Panaderia Ana" 20 0 "") := by
    simp [findClientRec, singleRow]
  have h := createDispatchSale_spec
      (DBState.mk [] [Client.mk "C" "Ana" "Panaderia Ana" 20 0 ""] [] [])
      "C" [SaleItem.mk "Q" "Pan" 2 5 10] "u" "s" "d"
      (Client.mk "C" "Ana" "Panaderia Ana" 20 0 "") hc (by simp)
  refine ⟨?_, ?_⟩
  · have h21 := h.2.1
    have : (20 : Rat) + 10 = 30 := by norm_num
    simpa [sumSubtotals, this] using h21
  · have := h.2.2.1
    simpa [sumSubtotals] using this

/-- Counterexample for C1: in a store whose client `"C1"` exists but whose
products table is empty, `createDispatchSale` for an item referencing the
nonexistent product `"P1"` does **not** fail — it returns success, persists
the sale, and increments the client's debt, while the stock decrement for
the missing product is silently skipped. This contradicts the claim that a
referenced product missing at commit time leaves no persisted sale and no
debt change observable. -/
theorem createDispatchSale_missing_product_cex :
    findProduct
      (DBState.mk [] [Client.mk "C1" "Ana" "B" 0 0 ""] [] []).products "P1" =
      none ∧
    (createDispatchSale (DBState.mk [] [Client.mk "C1" "Ana" "B" 0 0 ""] [] [])
      "C1" [SaleItem.mk "P1" "Pan" 2 5 10] "u" "s1" "d").2 = Except.ok () ∧
    (createDispatchSale (DBState.mk [] [Client.mk "C1" "Ana" "B" 0 0 ""] [] [])
      "C1" [SaleItem.mk "P1" "Pan" 2 5 10] "u" "s1" "d").1.sales.length = 1 ∧
    debtOf (createDispatchSale
        (DBState.mk [] [Client.mk "C1" "Ana" "B" 0 0 ""] [] [])
        "C1" [SaleItem.mk "P1" "Pan" 2 5 10] "u" "s1" "d").1.clients "C1" =
      some 10 := by
  refine ⟨by simp [findProduct, singleRow], ?_, ?_, ?_⟩ <;>
    simp [createDispatchSale, findClientRec, singleRow, decrementStockAll,
      decrementStock, findProduct, debtOf]

/-- Claim C1, amended: the only failure points of `createDispatchSale`
(client lookup, sale insert) and of `createRetailSale` (sale insert) occur
before any mutation, so a call that fails leaves the store exactly as it
was; but the operation is not all-or-nothing on success — once the client
exists and the sale id is fresh, the call succeeds and persists the sale
unconditionally, whether or not the referenced products exist (a missing
product's stock decrement is silently skipped). -/
theorem createSale_error_no_mutation (st : DBState) (clientId : String)
    (items : List SaleItem) (sellerId saleId date : String) :
    (∀ e : DBError,
      (createDispatchSale st clientId items sellerId saleId date).2 =
        Except.error e →
      (createDispatchSale st clientId items sellerId saleId date).1 = st) ∧
    (∀ e : DBError,
      (createRetailSale st items sellerId saleId date).2 = Except.error e →
      (createRetailSale st items sellerId saleId date).1 = st) ∧
    (∀ client : Client, findClientRec st.clients clientId = some client →
      (∀ s ∈ st.sales, s.id ≠ saleId) →
      (createDispatchSale st clientId items sellerId saleId date).2 =
        Except.ok () ∧
      (createDispatchSale st clientId items sellerId saleId date).1.sales.length
        = st.sales.length + 1) := by
  refine ⟨?_, ?_, ?_⟩
  · intro e he
    cases hcl : findClientRec st.clients clientId with
    | none => simp [createDispatchSale, hcl]
    | some client =>
      by_cases hb : (st.sales.any fun s => s.id == saleId) = true
      · simp [createDispatchSale, hcl, hb]
      · simp only [createDispatchSale, hcl, hb, Bool.false_eq_true,
          if_false] at he
        simp only [Bool.not_eq_true] at hb
        simp [createDispatchSale, hcl, hb] at he
  · intro e he
    by_cases hb : (st.sales.any fun s => s.id == saleId) = true
    · simp [createRetailSale, hb]
    · simp [createRetailSale, hb] at he
  · intro client hc hfresh
    have hany := any_id_eq_false hfresh
    constructor <;>
      simp [createDispatchSale, hc, hany]

/-- Witness for C1 (amended): a dispatch for a nonexistent client fails and
leaves the empty store unchanged, and a retail sale whose generated id
collides with an existing sale fails and leaves the store unchanged. -/
theorem createSale_error_no_mutation_witness :
    (createDispatchSale (DBState.mk [] [] [] []) "C" [] "u" "s" "d").1 =
      DBState.mk [] [] [] [] ∧
    (createRetailSale
        (DBState.mk [] [] [Sale.mk "s" "d" SaleType.pos [] 0 none none "u"] [])
        [] "u" "s" "d2").1 =
      DBState.mk [] [] [Sale.mk "s" "d" SaleType.pos [] 0 none none "u"] [] := by
  have h1 := createSale_error_no_mutation
      (DBState.mk [] [] [] []) "C" [] "u" "s" "d"
  have h2 := createSale_error_no_mutation
      (DBState.mk [] [] [Sale.mk "s" "d" SaleType.pos [] 0 none none "u"] [])
      "C" [] "u" "s" "d2"
  exact ⟨h1.1 DBError.clienteNoExiste
      (by simp [createDispatchSale, findClientRec, singleRow]),
    h2.2.1 DBError.saleInsertError (by simp [createRetailSale])⟩

/-- Counterexample for C5: a product with stock 5 sold at quantity 7 — the
sale succeeds (no `Conflict`; no such error even exists in the code) and the
stock is driven to −2, refuting the claim that a decrement only succeeds
when `stock >= quantity` and that stock stays non-negative. -/
theorem createRetailSale_oversell_cex :
    (createRetailSale (DBState.mk [Product.mk "P" "Pan" 1 1 0 5 "c"] [] [] [])
      [SaleItem.mk "P" "Pan" 7 1 7] "u" "s" "d").2 = Except.ok () ∧
    stockOf (createRetailSale
        (DBState.mk [Product.mk "P" "Pan" 1 1 0 5 "c"] [] [] [])
        [SaleItem.mk "P" "Pan" 7 1 7] "u" "s" "d").1.products "P" =
      some (-2) ∧
    (-2 : Int) < 0 := by
  refine ⟨?_, ?_, by decide⟩ <;>
    simp [createRetailSale, decrementStockAll, decrementStock, findProduct,
      stockOf, singleRow]

/-- Claim C5, amended: the stock decrement is unconditional — for an
existing product, a single-item retail sale always succeeds and writes
`stock_before - quantity`, even when the quantity exceeds the stock, in
which case the resulting stock is negative; there is no conditional
`stock >= quantity` guard and no `Conflict` outcome. -/
theorem createRetailSale_unconditional_decrement (st : DBState)
    (item : SaleItem) (p : Product) (sellerId saleId date : String)
    (hp : findProduct st.products item.productId = some p)
    (hfresh : ∀ s ∈ st.sales, s.id ≠ saleId) :
    (createRetailSale st [item] sellerId saleId date).2 = Except.ok () ∧
    stockOf (createRetailSale st [item] sellerId saleId date).1.products
      item.productId = some (p.stock - item.quantity) ∧
    (p.stock < item.quantity → p.stock - item.quantity < 0) := by
  have hany := any_id_eq_false hfresh
  have h1 := findProduct_decrementStock_self st.products item.productId
    item.quantity p hp
  refine ⟨by simp [createRetailSale, hany], ?_, by omega⟩
  simp [createRetailSale, hany, decrementStockAll, stockOf, h1]

/-- Witness for C5 (amended): stock 5, quantity 7 — the call succeeds and
leaves stock `5 - 7 = -2 < 0`. -/
theorem createRetailSale_unconditional_decrement_witness :
    stockOf (createRetailSale
        (DBState.mk [Product.mk "Q" "Pan" 1 1 0 5 "c"] [] [] [])
        [SaleItem.mk "Q" "Pan" 7 1 7] "u" "s" "d").1.products "Q" =
      some (5 - 7) ∧
    (5 : Int) - 7 < 0 := by
  have hp : findProduct [Product.mk "Q" "Pan" 1 1 0 5 "c"] "Q" =
      some (Product.mk "Q" "Pan" 1 1 0 5 "c") := by
    simp [findProduct, singleRow]
  have h := createRetailSale_unconditional_decrement
      (DBState.mk [Product.mk "Q" "Pan" 1 1 0 5 "c"] [] [] [])
      (SaleItem.mk "Q" "Pan" 7 1 7) (Product.mk "Q" "Pan" 1 1 0 5 "c")
      "u" "s" "d" hp (by simp)
  exact ⟨h.2.1, h.2.2 (by decide)⟩

/-- Counterexample for C6: `createRetailSale` exposes no caller-supplied
sale id — `generateId` (`crypto.randomUUID()`) supplies a fresh id on every
call — so a retry re-invoking it with identical items runs with a second,
distinct id: starting from stock 10, two invocations with the same item of
quantity 4 leave stock 2 (decremented twice), not 6, and persist two sales. -/
theorem createRetailSale_retry_cex :
    stockOf (createRetailSale
        (createRetailSale (DBState.mk [Product.mk "P" "Pan" 1 1 0 10 "c"] [] [] [])
          [SaleItem.mk "P" "Pan" 4 1 4] "u" "id1" "d1").1
        [SaleItem.mk "P" "Pan" 4 1 4] "u" "id2" "d2").1.products "P" =
      some 2 ∧
    stockOf (createRetailSale
        (createRetailSale (DBState.mk [Product.mk "P" "Pan" 1 1 0 10 "c"] [] [] [])
          [SaleItem.mk "P" "Pan" 4 1 4] "u" "id1" "d1").1
        [SaleItem.mk "P" "Pan" 4 1 4] "u" "id2" "d2").1.products "P" ≠
      some 6 ∧
    (createRetailSale
        (createRetailSale (DBState.mk [Product.mk "P" "Pan" 1 1 0 10 "c"] [] [] [])
          [SaleItem.mk "P" "Pan" 4 1 4] "u" "id1" "d1").1
        [SaleItem.mk "P" "Pan" 4 1 4] "u" "id2" "d2").1.sales.length = 2 := by
  refine ⟨?_, ?_, ?_⟩ <;>
    simp [createRetailSale, decrementStockAll, decrementStock, findProduct,
      stockOf, singleRow]

/-- Claim C6, amended: `createRetailSale` is **not** idempotent on a
caller-supplied sale id, because its sale id is generated internally per
call: re-invoking it with identical items under the fresh ids the generator
produces decrements the referenced product's stock a second time
(`stock - quantity - quantity`) and persists a second sale; only if the
generator returned the very same id again would the second call abort on
the sales-table insert (leaving the first call's state intact) instead of
decrementing again. -/
theorem createRetailSale_not_idempotent (st : DBState) (item : SaleItem)
    (p : Product) (sellerId id1 id2 d1 d2 : String)
    (hp : findProduct st.products item.productId = some p)
    (h1 : ∀ s ∈ st.sales, s.id ≠ id1)
    (h2 : ∀ s ∈ st.sales, s.id ≠ id2)
    (hne : id1 ≠ id2) :
    stockOf (createRetailSale (createRetailSale st [item] sellerId id1 d1).1
        [item] sellerId id2 d2).1.products item.productId =
      some (p.stock - item.quantity - item.quantity) ∧
    (createRetailSale (createRetailSale st [item] sellerId id1 d1).1
        [item] sellerId id2 d2).1.sales.length = st.sales.length + 2 ∧
    (createRetailSale (createRetailSale st [item] sellerId id1 d1).1
        [item] sellerId id1 d2).2 = Except.error DBError.saleInsertError ∧
    (createRetailSale (createRetailSale st [item] sellerId id1 d1).1
        [item] sellerId id1 d2).1 =
      (createRetailSale st [item] sellerId id1 d1).1 := by
  have hany1 := any_id_eq_false h1
  have hrun1 : createRetailSale st [item] sellerId id1 d1 =
      ({ st with
          sales := st.sales ++ [Sale.mk id1 d1 SaleType.pos [item]
            (0 + item.subtotal) none none sellerId],
          products := decrementStock st.products item.productId item.quantity },
       Except.ok ()) := by
    simp only [createRetailSale, hany1, Bool.false_eq_true, if_false,
      List.foldl_cons, List.foldl_nil, decrementStockAll]
  have hp1 : findProduct
      (decrementStock st.products item.productId item.quantity)
      item.productId = some { p with stock := p.stock - item.quantity } :=
    findProduct_decrementStock_self st.products item.productId item.quantity p hp
  have hfresh2 : ∀ s ∈ st.sales ++ [Sale.mk id1 d1 SaleType.pos [item]
      (0 + item.subtotal) none none sellerId], s.id ≠ id2 := by
    intro s hs
    rcases List.mem_append.1 hs with hs | hs
    · exact h2 s hs
    · rcases List.mem_singleton.1 hs with rfl
      simpa using hne
  have hany2 := any_id_eq_false hfresh2
  have hdup : ((st.sales ++ [Sale.mk id1 d1 SaleType.pos [item]
      (0 + item.subtotal) none none sellerId]).any
        (fun s => s.id == id1)) = true := by
    refine List.any_eq_true.2 ⟨Sale.mk id1 d1 SaleType.pos [item]
      (0 + item.subtotal) none none sellerId, by simp, by simp⟩
  have hrun2 : createRetailSale
      ({ st with
          sales := st.sales ++ [Sale.mk id1 d1 SaleType.pos [item]
            (0 + item.subtotal) none none sellerId],
          products := decrementStock st.products item.productId item.quantity })
      [item] sellerId id2 d2 =
      ({ st with
          sales := (st.sales ++ [Sale.mk id1 d1 SaleType.pos [item]
            (0 + item.subtotal) none none sellerId]) ++
            [Sale.mk id2 d2 SaleType.pos [item] (0 + item.subtotal) none none
              sellerId],
          products := decrementStock
            (decrementStock st.products item.productId item.quantity)
            item.productId item.quantity }, Except.ok ()) := by
    simp only [createRetailSale, hany2, Bool.false_eq_true, if_false,
      List.foldl_cons, List.foldl_nil, decrementStockAll]
  have hrun2d : createRetailSale
      ({ st with
          sales := st.sales ++ [Sale.mk id1 d1 SaleType.pos [item]
            (0 + item.subtotal) none none sellerId],
          products := decrementStock st.products item.productId item.quantity })
      [item] sellerId id1 d2 =
      ({ st with
          sales := st.sales ++ [Sale.mk id1 d1 SaleType.pos [item]
            (0 + item.subtotal) none none sellerId],
          products := decrementStock st.products item.productId item.quantity },
       Except.error DBError.saleInsertError) := by
    simp only [createRetailSale, hdup, if_true]
  have hp2 := findProduct_decrementStock_self
    (decrementStock st.products item.productId item.quantity)
    item.productId item.quantity _ hp1
  refine ⟨?_, ?_, ?_, ?_⟩
  · rw [hrun1]
    dsimp only
    rw [hrun2]
    dsimp only
    simp [stockOf, hp2]
  · rw [hrun1]
    dsimp only
    rw [hrun2]
    simp
  · rw [hrun1]
    dsimp only
    rw [hrun2d]
  · rw [hrun1]
    dsimp only
    rw [hrun2d]

/-- Witness for C6 (amended): stock 10, quantity 4, two invocations under
distinct generated ids end at stock `10 - 4 - 4 = 2`. -/
theorem createRetailSale_not_idempotent_witness :
    stockOf (createRetailSale (createRetailSale
        (DBState.mk [Product.mk "R" "Pan" 1 1 0 10 "c"] [] [] [])
        [SaleItem.mk "R" "Pan" 4 1 4] "u" "a" "d1").1
        [SaleItem.mk "R" "Pan" 4 1 4] "u" "b" "d2").1.products "R" =
      some (10 - 4 - 4) := by
  have hp : findProduct [Product.mk "R" "Pan" 1 1 0 10 "c"] "R" =
      some (Product.mk "R" "Pan" 1 1 0 10 "c") := by
    simp [findProduct, singleRow]
  exact (createRetailSale_not_idempotent
      (DBState.mk [Product.mk "R" "Pan" 1 1 0 10 "c"] [] [] [])
      (SaleItem.mk "R" "Pan" 4 1 4) (Product.mk "R" "Pan" 1 1 0 10 "c")
      "u" "a" "b" "d1" "d2" hp (by simp) (by simp) (by decide)).1

/-- Counterexample for C7: an empty item list is not rejected —
`createRetailSale` with no items succeeds and appends a (total-0) sale to
the ledger, refuting the claim that invalid input is rejected with a
validation error before any mutation. -/
theorem emptyItems_accepted_cex :
    (createRetailSale (DBState.mk [] [] [] []) [] "u" "s" "d").2 =
      Except.ok () ∧
    (createRetailSale (DBState.mk [] [] [] []) [] "u" "s" "d").1.sales.length
      = 1 := by
  constructor <;> simp [createRetailSale, decrementStockAll]

/-- Claim C7, amended: the code performs no input validation at all — an
empty item list is accepted by `createRetailSale` (a sale is persisted
anyway), and `registerClientPayment` accepts a non-positive amount: for a
negative amount the clamp formula `max 0 (debt - amount)` *increases* the
client's debt. -/
theorem no_input_validation (st : DBState)
    (sellerId saleId date clientId : String) (amount : Rat) (client : Client)
    (hfresh : ∀ s ∈ st.sales, s.id ≠ saleId)
    (hc : findClientRec st.clients clientId = some client)
    (hneg : amount < 0) (hdebt : 0 ≤ client.debt) :
    (createRetailSale st [] sellerId saleId date).2 = Except.ok () ∧
    (createRetailSale st [] sellerId saleId date).1.sales =
      st.sales ++ [Sale.mk saleId date SaleType.pos [] 0 none none sellerId] ∧
    (registerClientPayment st clientId amount).2 = Except.ok () ∧
    debtOf (registerClientPayment st clientId amount).1.clients clientId =
      some (client.debt - amount) ∧
    client.debt < client.debt - amount := by
  have hany := any_id_eq_false hfresh
  have hrun : registerClientPayment st clientId amount =
      ({ st with clients := st.clients.map (fun c =>
          if c.id == clientId
          then { c with debt := max 0 (client.debt - amount) } else c) },
       Except.ok ()) := by
    unfold registerClientPayment
    rw [hc]
  refine ⟨by simp [createRetailSale, hany],
    by simp [createRetailSale, hany, decrementStockAll],
    by rw [hrun], ?_, by linarith⟩
  rw [hrun]
  have hmax : max 0 (client.debt - amount) = client.debt - amount :=
    max_eq_right (by linarith)
  simp only [debtOf, hmax]
  have hfind := findClientRec_map_update st.clients clientId
    (fun x => { x with debt := client.debt - amount })
    (fun x => rfl) client hc
  simp only [hfind]
  rfl

/-- Witness for C7 (amended): on a client with debt 50, a "payment" of −5
is accepted and raises the debt to 55. -/
theorem no_input_validation_witness :
    debtOf (registerClientPayment
        (DBState.mk [] [Client.mk "C" "Ana" "" 50 0 ""] [] []) "C"
        (-5)).1.clients "C" = some (50 - (-5)) ∧
    (50 : Rat) < 50 - (-5) := by
  have hc : findClientRec [Client.mk "C" "Ana" "" 50 0 ""] "C" =
      some (Client.mk "C" "Ana" "" 50 0 "") := by
    simp [findClientRec, singleRow]
  have h := no_input_validation
      (DBState.mk [] [Client.mk "C" "Ana" "" 50 0 ""] [] []) "u" "s" "d" "C"
      (-5) (Client.mk "C" "Ana" "" 50 0 "") (by simp) hc (by norm_num)
      (by norm_num)
  exact ⟨h.2.2.2.1, h.2.2.2.2⟩

/-- Counterexample for C8: after holding a cart and resuming it once, a
second resume with the same suspended sale does **not** fail with a
NotFound error — the handler returns the held items again (the delete
underneath is a no-op); no existence check is performed. -/
theorem resumeSale_double_cex :
    (handleResumeSale
      (DBState.mk [] [] []
        [SuspendedSale.mk "S1" "Walk-in A"
          [CartItem.mk (Product.mk "P" "Pan" 1 1 0 5 "c") 2] "d" 15])
      [] (SuspendedSale.mk "S1" "Walk-in A"
          [CartItem.mk (Product.mk "P" "Pan" 1 1 0 5 "c") 2] "d" 15)
      true).2 =
      [CartItem.mk (Product.mk "P" "Pan" 1 1 0 5 "c") 2] ∧
    (handleResumeSale
      (DBState.mk [] [] []
        [SuspendedSale.mk "S1" "Walk-in A"
          [CartItem.mk (Product.mk "P" "Pan" 1 1 0 5 "c") 2] "d" 15])
      [] (SuspendedSale.mk "S1" "Walk-in A"
          [CartItem.mk (Product.mk "P" "Pan" 1 1 0 5 "c") 2] "d" 15)
      true).1.suspendedSales = [] ∧
    (handleResumeSale
      (handleResumeSale
        (DBState.mk [] [] []
          [SuspendedSale.mk "S1" "Walk-in A"
            [CartItem.mk (Product.mk "P" "Pan" 1 1 0 5 "c") 2] "d" 15])
        [] (SuspendedSale.mk "S1" "Walk-in A"
            [CartItem.mk (Product.mk "P" "Pan" 1 1 0 5 "c") 2] "d" 15)
        true).1
      (handleResumeSale
        (DBState.mk [] [] []
          [SuspendedSale.mk "S1" "Walk-in A"
            [CartItem.mk (Product.mk "P" "Pan" 1 1 0 5 "c") 2] "d" 15])
        [] (SuspendedSale.mk "S1" "Walk-in A"
            [CartItem.mk (Product.mk "P" "Pan" 1 1 0 5 "c") 2] "d" 15)
        true).2
      (SuspendedSale.mk "S1" "Walk-in A"
        [CartItem.mk (Product.mk "P" "Pan" 1 1 0 5 "c") 2] "d" 15)
      true).2 =
      [CartItem.mk (Product.mk "P" "Pan" 1 1 0 5 "c") 2] := by
  refine ⟨?_, ?_, ?_⟩ <;>
    simp [handleResumeSale, removeSuspendedSale]

/-- Claim C8, amended: resuming a held sale returns the held item snapshot
and removes every suspended record with that id; but there is no NotFound
failure path — resuming the same suspended sale a second time (confirming
the cart overwrite) returns the very same items again and leaves the store
as after the first resume (the second delete is a no-op). -/
theorem handleResumeSale_no_notfound (st : DBState) (susp : SuspendedSale) :
    (handleResumeSale st [] susp true).2 = susp.items ∧
    (∀ s ∈ (handleResumeSale st [] susp true).1.suspendedSales,
      s.id ≠ susp.id) ∧
    (handleResumeSale (handleResumeSale st [] susp true).1
        (handleResumeSale st [] susp true).2 susp true).2 = susp.items ∧
    (handleResumeSale (handleResumeSale st [] susp true).1
        (handleResumeSale st [] susp true).2 susp true).1 =
      (handleResumeSale st [] susp true).1 := by
  have h1 : handleResumeSale st [] susp true =
      (removeSuspendedSale st susp.id, susp.items) := by
    simp [handleResumeSale]
  have h2 : handleResumeSale (removeSuspendedSale st susp.id) susp.items susp
      true = (removeSuspendedSale (removeSuspendedSale st susp.id) susp.id,
        susp.items) := by
    simp [handleResumeSale]
  have h3 : removeSuspendedSale (removeSuspendedSale st susp.id) susp.id =
      removeSuspendedSale st susp.id := by
    simp [removeSuspendedSale, List.filter_filter]
  rw [h1]
  refine ⟨rfl, ?_, ?_, ?_⟩
  · intro s hs
    have := List.of_mem_filter hs
    simpa [beq_iff_eq] using this
  · rw [h2]
  · rw [h2]
    exact h3
